import Mathlib

/-!
Verification development for the foam2csr AmgX solver wrapper
(`src/src/AmgXSolver.H`).

The repository ships the class interface `AmgXSolver.H`; the member-function
bodies live in a translation unit that is not part of the sources here, so
every definition below is either a direct shallow embedding of what the header
itself contains (the `CHECK` macro, the in-class member initializers, the
documented mode list) or, where only a declaration is present, a model built
from the specification's description of that member (such definitions carry a
doc comment starting with `Modelled from the spec:`).
-/

namespace Foam2Csr

/-- The `cudaSuccess` error code: the CUDA runtime reports success as 0. -/
def cudaSuccess : Nat := 0

/-- The MPI constant `MPI_UNDEFINED` (a negative sentinel; MPICH uses
-32766).  `AmgXSolver::gpuProc` is initialized to it in the header
(src/src/AmgXSolver.H line 279). -/
def MPI_UNDEFINED : Int := -32766

/-- Outcome of running a piece of the wrapper: either control returns to the
caller with a value, or the process has been aborted via `exit(code)`. -/
inductive Outcome (α : Type) where
  | ok : α → Outcome α
  | fatalExit : Nat → Outcome α
deriving DecidableEq, Repr

/-- Shallow embedding of the `CHECK` macro (src/src/AmgXSolver.H lines 36-50):
the CUDA call's returned error code is compared against `cudaSuccess`; on any
other code the macro prints diagnostics and calls `exit(1)`, so control never
reaches the continuation `rest`. -/
def CHECK (errorCode : Nat) (rest : Outcome α) : Outcome α :=
  if errorCode = cudaSuccess then rest else Outcome.fatalExit 1

/-- Modelled from the spec: `AmgXSolver::setDeviceCount` (declared at
src/src/AmgXSolver.H lines 354-356; its body is not among the sources).
Spec 4.1: it queries the number of accelerator devices visible on the node via
the device-enumeration call, guarded by `CHECK`, and fails fatally (process
abort) if that call errors.  The enumeration call is modelled by its observable
result: the returned error code paired with the device count it would report. -/
def setDeviceCount (enumErrorCode : Nat) (enumCount : Nat) : Outcome Nat :=
  CHECK enumErrorCode (Outcome.ok enumCount)

/-- The AmgX solver modes documented in the header
(src/src/AmgXSolver.H line 348): dDDI, dDFI, dFFI, hDDI, hDFI, hFFI. -/
inductive AMGX_Mode where
  | dDDI | dDFI | dFFI | hDDI | hDFI | hFFI
deriving DecidableEq, Repr

/-- Modelled from the spec: `AmgXSolver::setMode` (declared at
src/src/AmgXSolver.H lines 346-352; its body is not among the sources).
The header documents "Available modes are: dDDI, dDFI, dFFI, hDDI, hDFI,
hFFI", and spec 6 says the mode string is validated against this fixed
enumerated set; any other string is rejected. -/
def setMode (modeStr : String) : Option AMGX_Mode :=
  if modeStr = "dDDI" then some AMGX_Mode.dDDI
  else if modeStr = "dDFI" then some AMGX_Mode.dDFI
  else if modeStr = "dFFI" then some AMGX_Mode.dFFI
  else if modeStr = "hDDI" then some AMGX_Mode.hDDI
  else if modeStr = "hDFI" then some AMGX_Mode.hDFI
  else if modeStr = "hFFI" then some AMGX_Mode.hFFI
  else none

/-- The process-wide shared accelerator context of spec 3
(`SharedAcceleratorContext`): the static members `AmgXSolver::count`
(src/src/AmgXSolver.H line 264) and `AmgXSolver::rsrc` (line 344), together
with event counters recording how many times the shared resource handle has
been created and destroyed over the process lifetime. -/
structure SharedState where
  count : Int
  rsrcLive : Bool
  created : Nat
  destroyed : Nat
deriving DecidableEq, Repr

/-- The shared state at process start: no instance yet, no resource. -/
def sharedInit : SharedState :=
  { count := 0, rsrcLive := false, created := 0, destroyed := 0 }

/-- The per-instance fields of `AmgXSolver` relevant to lifecycle, with the
in-class member initializers of the header: `isInitialised = false` (line 267),
`gpuProc = MPI_UNDEFINED` (line 279), and the AmgX handles `cfg`, `AmgXA`,
`AmgXP`, `AmgXRHS`, `solver` all `nullptr` (lines 324-336), modelled as
`Option` with `none` for the null pointer. -/
structure InstanceState where
  isInitialised : Bool := false
  gpuProc : Int := MPI_UNDEFINED
  cfg : Option Unit := none
  AmgXA : Option Unit := none
  AmgXP : Option Unit := none
  AmgXRHS : Option Unit := none
  solver : Option Unit := none
deriving DecidableEq, Repr

/-- The state of a default-constructed `AmgXSolver`
(src/src/AmgXSolver.H line 100: `AmgXSolver() = default;`): every field takes
its in-class initializer. -/
def defaultConstructed : InstanceState := {}

/-- Modelled from the spec: the shared-resource half of
`AmgXSolver::initialize` / `initAmgX` (declared at src/src/AmgXSolver.H lines
125-130 and 379; bodies not among the sources).  Spec 4.3 `acquire()`: called
from every instance's initialize, but only device-owning processes perform
real work; if the process-wide instance count is 0, initialize the external
library and create the shared resource handle; increment the count. -/
def acquire (gpuOwning : Bool) (s : SharedState) : SharedState :=
  if s.count = 0 ∧ gpuOwning then
    { count := s.count + 1, rsrcLive := true,
      created := s.created + 1, destroyed := s.destroyed }
  else
    { count := s.count + 1, rsrcLive := s.rsrcLive,
      created := s.created, destroyed := s.destroyed }

/-- Modelled from the spec: the shared-resource half of `AmgXSolver::finalize`
(spec 4.3 `release()`): decrement the count; if it reaches 0 (on a
device-owning process that holds the resource), destroy the shared resource
handle and shut down the external library. -/
def release (gpuOwning : Bool) (s : SharedState) : SharedState :=
  if s.count - 1 = 0 ∧ gpuOwning then
    { count := s.count - 1, rsrcLive := false,
      created := s.created, destroyed := s.destroyed + 1 }
  else
    { count := s.count - 1, rsrcLive := s.rsrcLive,
      created := s.created, destroyed := s.destroyed }

/-- Modelled from the spec: `AmgXSolver::finalize` (declared at
src/src/AmgXSolver.H lines 138-145; body not among the sources).  Spec 4.3:
release of the shared resource is guarded by the per-instance
"already finalized" flag (`isInitialised`, line 267), so a second call on the
same instance is a no-op, not an error.  An initialized instance drops its
AmgX handles, clears the flag and releases its reference on the shared
context. -/
def finalizeInst (gpuOwning : Bool) (inst : InstanceState) (s : SharedState) :
    InstanceState × SharedState :=
  if inst.isInitialised then
    ({ isInitialised := false, gpuProc := inst.gpuProc,
       cfg := none, AmgXA := none, AmgXP := none, AmgXRHS := none,
       solver := none },
     release gpuOwning s)
  else
    (inst, s)

/-- Modelled from the spec: the scenario of spec 8's instance-count invariant,
restricted to the shared context.  `N` instances each call initialize (each
performing `acquire`), on a process whose device-owning role is `gpuOwning`. -/
def acquireN (gpuOwning : Bool) (n : Nat) : SharedState :=
  (acquire gpuOwning)^[n] sharedInit

/-- Modelled from the spec: all `n` initialized instances then call finalize,
each performing `release` on the shared context. -/
def releaseN (gpuOwning : Bool) (n : Nat) (s : SharedState) : SharedState :=
  (release gpuOwning)^[n] s

/-- Modelled from the spec: the election half of `AmgXSolver::setDeviceIDs`
(declared at src/src/AmgXSolver.H lines 358-360; body not among the sources).
Spec 4.2 step 3: if `localRank < deviceCount` this process is elected a
GPU-owning process (its `gpuProc` split color becomes 0 instead of
`MPI_UNDEFINED`) and is assigned `devID = localRank % deviceCount`; otherwise
it is relay-only with no device assignment. -/
def setDeviceIDs (localRank nDevs : Nat) : Int × Option Nat :=
  if localRank < nDevs then (0, some (localRank % nDevs))
  else (MPI_UNDEFINED, none)

/-- Modelled from the spec: the `perDeviceWorld` split color used by
`AmgXSolver::initMPIcomms` (declared at src/src/AmgXSolver.H lines 362-369;
body not among the sources).  Spec 4.2 step 5 with the modulo tie-break of
spec 4.2 / 9: an owning process is keyed by its `devID` and a relay-only
process is matched to an owning process by the same modulo rule, so every
process with local rank `localRank` lands in the group of device
`localRank % nDevs`. -/
def devWorldColor (nDevs localRank : Nat) : Nat :=
  localRank % nDevs

/-- A local CSR fragment as supplied per process by the matrix adapter
(spec 3 `DistributedCSROperator` and the `setOperator` parameters at
src/src/AmgXSolver.H lines 161-167): local row count, row offsets (starting at
0 and ending at the local nonzero count), global column indices and values. -/
structure CSRFragment where
  nRows : Nat
  rowOffsets : List Nat
  colIndices : List Nat
  values : List Int
deriving DecidableEq, Repr

/-- A fragment is well-formed when its row-offset array has one entry per row
plus one, starts at 0 and ends at its nonzero count. -/
def CSRFragment.wf (f : CSRFragment) : Prop :=
  f.rowOffsets.length = f.nRows + 1 ∧
  f.rowOffsets.head? = some 0 ∧
  f.rowOffsets.getLast? = some f.colIndices.length

instance (f : CSRFragment) : Decidable f.wf := by
  unfold CSRFragment.wf; infer_instance

/-- Modelled from the spec: the row-offset renumbering of the consolidation in
`AmgXSolver::setOperator` (declared at src/src/AmgXSolver.H lines 161-167;
body not among the sources).  Spec 4.4: the proxy concatenates the fragments
of its `perDeviceWorld`, renumbering row offsets to a contiguous local range:
each fragment's offsets are shifted by the nonzeros of the fragments before
it, the duplicate block boundaries being dropped. -/
def consOffsets : List CSRFragment → List Nat
  | [] => [0]
  | f :: rest =>
      f.rowOffsets.dropLast ++ (consOffsets rest).map (· + f.colIndices.length)

/-- Modelled from the spec: the consolidation step of `AmgXSolver::setOperator`
(spec 4.4).  The proxy merges the CSR fragments contributed by every member of
its `perDeviceWorld` (including itself) into one local CSR block: row offsets
renumbered to a contiguous local range, column indices concatenated unchanged
(kept in global numbering), values concatenated; the consolidated row count is
what the renumbered offset array describes. -/
def consolidate (frags : List CSRFragment) : CSRFragment :=
  { nRows := (consOffsets frags).length - 1,
    rowOffsets := consOffsets frags,
    colIndices := (frags.map (fun f => f.colIndices)).flatten,
    values := (frags.map (fun f => f.values)).flatten }

/-- The per-process vector data entering a solve call (spec 4.5): the local
slice of the unknown array `pscalar` (initial guess, updated in place) and of
the right-hand-side array `bscalar` (src/src/AmgXSolver.H lines 201-207).
Entries are kept abstract in `α` since the numeric solve itself is delegated
to the external engine. -/
structure ProcData (α : Type) where
  p : List α
  b : List α
deriving DecidableEq, Repr

/-- Gathering slices at the proxy: concatenation in `perDeviceWorld` rank
order, the same row ordering used by the consolidation of `setOperator`
(spec 4.5 step 1 / step 2). -/
def gather (slices : List (List α)) : List α :=
  slices.flatten

/-- Scattering the proxy's solution vector back: the proxy cuts the
contiguous solution into the row ranges originally contributed by each member
(spec 4.5 step 3). -/
def scatter (lens : List Nat) (xs : List α) : List (List α) :=
  match lens with
  | [] => []
  | n :: rest => xs.take n :: scatter rest (xs.drop n)

/-- Modelled from the spec: `AmgXSolver::solve` (declared at
src/src/AmgXSolver.H lines 201-207; body not among the sources), viewed across
one whole `perDeviceWorld`.  Spec 4.5: (1) every member's slices of `p` and
`b` are gathered into the proxy's contiguous buffers; (2) the proxy invokes
the external solve (`ext`, the opaque external solver engine) on the gathered
vectors; (3) the resulting solution is scattered back, each member receiving
the slice for its original row range, while each member's `b` slice is left
untouched. -/
def solveGSS (ext : List α → List α → List α) (procs : List (ProcData α)) :
    List (ProcData α) :=
  let sol := ext (gather (procs.map (fun d => d.p)))
                 (gather (procs.map (fun d => d.b)))
  let newPs := scatter (procs.map (fun d => d.p.length)) sol
  (procs.zip newPs).map (fun q => { p := q.2, b := q.1.b })

/-- The observable events of one solve call, for stating the ordering
guarantee of spec 4.5: a gather of some member's slice into the proxy, the
external solver invocation, or a scatter write of some member's updated `p`
slice. -/
inductive SolveEvent where
  | gatherSlice : Nat → SolveEvent
  | externalSolve : SolveEvent
  | scatterWrite : Nat → SolveEvent
deriving DecidableEq, Repr

/-- Whether an event is part of the gather phase. -/
def SolveEvent.isGather : SolveEvent → Bool
  | SolveEvent.gatherSlice _ => true
  | _ => false

/-- Whether an event is part of the scatter phase. -/
def SolveEvent.isScatter : SolveEvent → Bool
  | SolveEvent.scatterWrite _ => true
  | _ => false

/-- Modelled from the spec: the order in which `AmgXSolver::solve` performs
its work for a `perDeviceWorld` of `n` members (spec 4.5 steps 1-3 and the
ordering guarantee): first the gather of every member's slices, then the
single blocking external solve, then the scatter of every member's updated
slice. -/
def solveTrace (n : Nat) : List SolveEvent :=
  (List.range n).map SolveEvent.gatherSlice
    ++ (SolveEvent.externalSolve
        :: (List.range n).map SolveEvent.scatterWrite)

/-! ## Helper lemmas shared between the claim theorems -/

/-- A process's `gpuProc` split color differs from `MPI_UNDEFINED` exactly
when its local rank is below the node's device count. -/
theorem setDeviceIDs_gpuProc_ne (localRank nDevs : Nat) :
    (setDeviceIDs localRank nDevs).1 ≠ MPI_UNDEFINED ↔ localRank < nDevs := by
  unfold setDeviceIDs MPI_UNDEFINED
  split_ifs with h <;> simp [h]

/-! ## Claim theorems -/

/-- C7: if the device-enumeration call (or any `CHECK`-guarded CUDA call)
returns a non-success code, the process aborts immediately via `exit(1)`,
and the device-count query never returns a value to its caller. -/
theorem c7_check_aborts_on_cuda_error (e c : Nat) (h : e ≠ cudaSuccess) :
    setDeviceCount e c = Outcome.fatalExit 1 ∧
    (∀ n : Nat, setDeviceCount e c ≠ Outcome.ok n) ∧
    (∀ (α : Type) (rest : Outcome α), CHECK e rest = Outcome.fatalExit 1) := by
  refine ⟨?_, ?_, ?_⟩ <;> intros <;> simp [setDeviceCount, CHECK, h]

/-- Witness for C7 at the concrete error code 1 (a genuine CUDA failure
code) and reported count 4. -/
theorem c7_check_aborts_on_cuda_error_witness :
    (1 : Nat) ≠ cudaSuccess ∧
    (setDeviceCount 1 4 = Outcome.fatalExit 1 ∧
     (∀ n : Nat, setDeviceCount 1 4 ≠ Outcome.ok n) ∧
     (∀ (α : Type) (rest : Outcome α), CHECK 1 rest = Outcome.fatalExit 1)) :=
  ⟨by decide, c7_check_aborts_on_cuda_error 1 4 (by decide)⟩

/-- C9: `setMode` accepts a mode string if and only if it is one of the six
documented values dDDI, dDFI, dFFI, hDDI, hDFI, hFFI. -/
theorem c9_mode_string_validation (s : String) :
    (setMode s).isSome = true ↔
      s = "dDDI" ∨ s = "dDFI" ∨ s = "dFFI" ∨
      s = "hDDI" ∨ s = "hDFI" ∨ s = "hFFI" := by
  unfold setMode
  split_ifs <;> simp_all

/-- C10: a default-constructed `AmgXSolver` starts with `isInitialised`
false, `gpuProc = MPI_UNDEFINED`, all five AmgX handles null, and finalizing
such a never-initialized instance leaves both the instance and the shared
accelerator context untouched. -/
theorem c10_default_constructed_state :
    defaultConstructed.isInitialised = false ∧
    defaultConstructed.gpuProc = MPI_UNDEFINED ∧
    defaultConstructed.cfg = none ∧
    defaultConstructed.AmgXA = none ∧
    defaultConstructed.AmgXP = none ∧
    defaultConstructed.AmgXRHS = none ∧
    defaultConstructed.solver = none ∧
    ∀ (g : Bool) (s : SharedState),
      finalizeInst g defaultConstructed s = (defaultConstructed, s) := by
  refine ⟨rfl, rfl, rfl, rfl, rfl, rfl, rfl, ?_⟩
  intro g s
  simp [finalizeInst, defaultConstructed]

/-- C3: during topology construction a process is elected GPU-owning iff its
node-local rank is below the node's device count; an elected process gets
device id `localRank % deviceCount`, any other process gets no device
assignment. -/
theorem c3_device_election (localRank nDevs : Nat) :
    ((setDeviceIDs localRank nDevs).1 ≠ MPI_UNDEFINED ↔ localRank < nDevs) ∧
    (localRank < nDevs →
      (setDeviceIDs localRank nDevs).2 = some (localRank % nDevs)) ∧
    (¬ localRank < nDevs → (setDeviceIDs localRank nDevs).2 = none) := by
  refine ⟨setDeviceIDs_gpuProc_ne localRank nDevs, ?_, ?_⟩ <;>
    intro h <;> simp [setDeviceIDs, h]

/-- C5: `finalize` is idempotent per instance: a second call on the same
instance changes nothing further, and (given the invariant that an
initialized instance holds one reference) the shared instance count never
drops below zero. -/
theorem c5_finalize_idempotent (g : Bool) (inst : InstanceState)
    (s : SharedState) (hc : inst.isInitialised = true → 1 ≤ s.count)
    (h0 : 0 ≤ s.count) :
    finalizeInst g (finalizeInst g inst s).1 (finalizeInst g inst s).2
      = finalizeInst g inst s ∧
    0 ≤ (finalizeInst g inst s).2.count := by
  by_cases hi : inst.isInitialised
  · have h1 := hc hi
    constructor
    · simp [finalizeInst, hi]
    · unfold finalizeInst release
      split_ifs <;> simp_all
  · constructor
    · simp [finalizeInst, hi]
    · simp [finalizeInst, hi]
      exact h0

/-- Witness for C5: an initialized instance on a device-owning process with
shared count 1. -/
theorem c5_finalize_idempotent_witness :
    ((({ isInitialised := true } : InstanceState).isInitialised = true →
        (1 : Int) ≤ ({ count := 1, rsrcLive := true, created := 1,
                       destroyed := 0 } : SharedState).count) ∧
     (0 : Int) ≤ ({ count := 1, rsrcLive := true, created := 1,
                    destroyed := 0 } : SharedState).count) ∧
    (finalizeInst true
        (finalizeInst true ({ isInitialised := true } : InstanceState)
          ({ count := 1, rsrcLive := true, created := 1,
             destroyed := 0 } : SharedState)).1
        (finalizeInst true ({ isInitialised := true } : InstanceState)
          ({ count := 1, rsrcLive := true, created := 1,
             destroyed := 0 } : SharedState)).2
      = finalizeInst true ({ isInitialised := true } : InstanceState)
          ({ count := 1, rsrcLive := true, created := 1,
             destroyed := 0 } : SharedState) ∧
     0 ≤ (finalizeInst true ({ isInitialised := true } : InstanceState)
          ({ count := 1, rsrcLive := true, created := 1,
             destroyed := 0 } : SharedState)).2.count) :=
  ⟨⟨fun _ => by decide, by decide⟩,
   c5_finalize_idempotent true _ _ (fun _ => by decide) (by decide)⟩

/-- After `n` acquires from a fresh process, the shared count is `n`, the
resource handle was created exactly once on a device-owning process (none
otherwise, and only if some instance exists), and nothing was destroyed. -/
theorem acquireN_eq (g : Bool) (n : Nat) :
    acquireN g n =
      { count := (n : Int),
        rsrcLive := g && decide (0 < n),
        created := if g = true ∧ 0 < n then 1 else 0,
        destroyed := 0 } := by
  induction n with
  | zero => cases g <;> rfl
  | succ k ih =>
      have h : acquireN g (k + 1) = acquire g (acquireN g k) :=
        Function.iterate_succ_apply' (acquire g) k sharedInit
      rw [h, ih]
      unfold acquire
      rcases Nat.eq_zero_or_pos k with hk | hk
      · subst hk; cases g <;> simp
      · have hkz : ((k : Int)) ≠ 0 := by
          exact_mod_cast Nat.pos_iff_ne_zero.mp hk
        cases g <;> simp [hkz, hk, Nat.pos_iff_ne_zero.mp hk]

/-- After `j ≤ n` releases from a shared state holding `n` references, the
count is `n - j` and the resource handle has been destroyed exactly once on a
device-owning process once the last reference is gone, and not before. -/
theorem releaseN_eq (g : Bool) (r : Bool) (c : Nat) (n j : Nat) (hj : j ≤ n) :
    releaseN g j
        { count := (n : Int), rsrcLive := r, created := c, destroyed := 0 } =
      { count := (n : Int) - j,
        rsrcLive := if g = true ∧ j = n ∧ 0 < n then false else r,
        created := c,
        destroyed := if g = true ∧ j = n ∧ 0 < n then 1 else 0 } := by
  induction j with
  | zero =>
      have : ¬ (g = true ∧ 0 = n ∧ 0 < n) := by rintro ⟨-, rfl, h⟩; omega
      simp [releaseN, this]
  | succ m ih =>
      have hm : m ≤ n := Nat.le_of_succ_le hj
      have hmn : m < n := hj
      have h : releaseN g (m + 1)
            { count := (n : Int), rsrcLive := r, created := c,
              destroyed := 0 }
          = release g (releaseN g m
              { count := (n : Int), rsrcLive := r, created := c,
                destroyed := 0 }) :=
        Function.iterate_succ_apply' (release g) m _
      rw [h, ih hm]
      have hne : ¬ (g = true ∧ m = n ∧ 0 < n) := by rintro ⟨-, rfl, -⟩; omega
      unfold release
      rcases Nat.eq_or_lt_of_le hj with he | hlt
      · subst he
        have e1 : m ≠ m + 1 := by omega
        have h1 : ((m + 1 : Nat) : Int) - (m : Int) - 1 = 0 := by push_cast; ring
        cases g <;> simp [hne, e1, h1]
      · have hz : (n : Int) - (m : Int) - 1 ≠ 0 := by omega
        have e1 : m ≠ n := by omega
        have e2 : m + 1 ≠ n := by omega
        cases g <;> simp [hne, hz, e1, e2] <;> omega

/-- C1: the shared accelerator resource is a process-wide singleton: for
every `N ≥ 1`, after `N` instances each acquire the shared context and all
`N` release it, the resource handle has been created exactly once and
destroyed exactly once on a device-owning process (and never on a relay-only
process), the instance count is back to zero and the handle is no longer
live. -/
theorem c1_shared_resource_singleton (g : Bool) (n : Nat) (hn : 1 ≤ n) :
    (releaseN g n (acquireN g n)).created = (if g = true then 1 else 0) ∧
    (releaseN g n (acquireN g n)).destroyed = (if g = true then 1 else 0) ∧
    (releaseN g n (acquireN g n)).count = 0 ∧
    (releaseN g n (acquireN g n)).rsrcLive = false := by
  have h0 : 0 < n := hn
  rw [acquireN_eq, releaseN_eq g (g && decide (0 < n))
    (if g = true ∧ 0 < n then 1 else 0) n n le_rfl]
  cases g <;> simp [h0]

/-- Witness for C1 at `N = 3` instances on a device-owning process. -/
theorem c1_shared_resource_singleton_witness :
    1 ≤ 3 ∧
    ((releaseN true 3 (acquireN true 3)).created = (if true = true then 1 else 0) ∧
     (releaseN true 3 (acquireN true 3)).destroyed = (if true = true then 1 else 0) ∧
     (releaseN true 3 (acquireN true 3)).count = 0 ∧
     (releaseN true 3 (acquireN true 3)).rsrcLive = false) :=
  ⟨by decide, c1_shared_resource_singleton true 3 (by decide)⟩

/-- C2: for every process count `P` and device count `D` with `P ≥ D ≥ 1`,
the communicator construction gives every process exactly one
`perDeviceWorld` color (so it lands in exactly one group), and every device
group contains exactly one GPU-owning member — its proxy. -/
theorem c2_perDeviceWorld_partition (P D : Nat) (hD : 1 ≤ D) (hP : D ≤ P) :
    (∀ p : Fin P,
      devWorldColor D p.val < D ∧
      (Finset.filter (fun g : Fin D => devWorldColor D p.val = g.val)
        Finset.univ).card = 1) ∧
    (∀ g : Fin D,
      (Finset.filter (fun p : Fin P =>
          devWorldColor D p.val = g.val ∧
          (setDeviceIDs p.val D).1 ≠ MPI_UNDEFINED)
        Finset.univ).card = 1) := by
  constructor
  · intro p
    have hmod : p.val % D < D := Nat.mod_lt _ hD
    refine ⟨hmod, ?_⟩
    rw [Finset.card_eq_one]
    refine ⟨⟨p.val % D, hmod⟩, ?_⟩
    ext g
    simp only [Finset.mem_filter, Finset.mem_univ, true_and,
      Finset.mem_singleton, devWorldColor, Fin.ext_iff]
    exact eq_comm
  · intro g
    have hg : g.val < P := lt_of_lt_of_le g.isLt hP
    rw [Finset.card_eq_one]
    refine ⟨⟨g.val, hg⟩, ?_⟩
    ext p
    simp only [Finset.mem_filter, Finset.mem_univ, true_and,
      Finset.mem_singleton, devWorldColor, setDeviceIDs_gpuProc_ne,
      Fin.ext_iff]
    constructor
    · rintro ⟨hcol, hlt⟩
      rw [Nat.mod_eq_of_lt hlt] at hcol
      exact hcol
    · intro hpg
      rw [hpg]
      exact ⟨Nat.mod_eq_of_lt g.isLt, g.isLt⟩

/-- Witness for C2 at `P = 5` processes and `D = 2` devices. -/
theorem c2_perDeviceWorld_partition_witness :
    (1 ≤ 2 ∧ 2 ≤ 5) ∧
    ((∀ p : Fin 5,
        devWorldColor 2 p.val < 2 ∧
        (Finset.filter (fun g : Fin 2 => devWorldColor 2 p.val = g.val)
          Finset.univ).card = 1) ∧
     (∀ g : Fin 2,
        (Finset.filter (fun p : Fin 5 =>
            devWorldColor 2 p.val = g.val ∧
            (setDeviceIDs p.val 2).1 ≠ MPI_UNDEFINED)
          Finset.univ).card = 1)) :=
  ⟨⟨by decide, by decide⟩,
   c2_perDeviceWorld_partition 5 2 (by decide) (by decide)⟩

/-- The renumbered offset array of a consolidation is never empty. -/
theorem consOffsets_ne_nil (frags : List CSRFragment) :
    consOffsets frags ≠ [] := by
  induction frags with
  | nil => simp [consOffsets]
  | cons f rest ih =>
      intro hcontra
      apply ih
      have hl := congrArg List.length hcontra
      simp only [consOffsets, List.length_append, List.length_map,
        List.length_nil, Nat.add_eq_zero] at hl
      exact List.length_eq_zero.mp hl.2

/-- Length of the renumbered offset array: one entry per consolidated row,
plus one. -/
theorem consOffsets_length (frags : List CSRFragment)
    (h : ∀ f ∈ frags, f.rowOffsets.length = f.nRows + 1) :
    (consOffsets frags).length = (frags.map (fun f => f.nRows)).sum + 1 := by
  induction frags with
  | nil => simp [consOffsets]
  | cons f rest ih =>
      have hf := h f (List.mem_cons_self f rest)
      have ih2 := ih (fun g hg => h g (List.mem_cons_of_mem f hg))
      simp only [consOffsets, List.length_append, List.length_dropLast,
        List.length_map, ih2, hf, List.map_cons, List.sum_cons]
      omega

/-- The renumbered offset array starts at 0: the consolidated block is
numbered in a contiguous local range from row 0. -/
theorem consOffsets_head (frags : List CSRFragment)
    (h : ∀ f ∈ frags, f.wf) :
    (consOffsets frags).head? = some 0 := by
  induction frags with
  | nil => rfl
  | cons f rest ih =>
      obtain ⟨hlen, hhead, hlast⟩ := h f (List.mem_cons_self f rest)
      have ih2 := ih (fun g hg => h g (List.mem_cons_of_mem f hg))
      obtain ⟨t, ht⟩ : ∃ t, f.rowOffsets = 0 :: t := by
        cases hro : f.rowOffsets with
        | nil => rw [hro] at hhead; exact absurd hhead (by simp)
        | cons a t =>
            rw [hro] at hhead
            simp only [List.head?_cons, Option.some.injEq] at hhead
            exact ⟨t, by rw [hhead]⟩
      cases t with
      | nil =>
          have hnnz : f.colIndices.length = 0 := by
            rw [ht] at hlast
            simp only [List.getLast?_singleton, Option.some.injEq] at hlast
            omega
          rw [consOffsets, ht]
          simp [List.head?_map, ih2, hnnz]
      | cons b t2 =>
          rw [consOffsets, ht, List.head?_append_of_ne_nil]
          · simp
          · simp

/-- The renumbered offset array ends at the total nonzero count of all
consolidated fragments. -/
theorem consOffsets_getLast (frags : List CSRFragment)
    (h : ∀ f ∈ frags, f.wf) :
    (consOffsets frags).getLast? =
      some ((frags.map (fun f => f.colIndices.length)).sum) := by
  induction frags with
  | nil => rfl
  | cons f rest ih =>
      have ih2 := ih (fun g hg => h g (List.mem_cons_of_mem f hg))
      rw [consOffsets, List.getLast?_append_of_ne_nil]
      · rw [List.getLast?_map, ih2]
        simp [Nat.add_comm]
      · intro hmap
        apply consOffsets_ne_nil rest
        exact List.map_eq_nil_iff.mp hmap

/-- C6: the consolidation of `setOperator` preserves row counts — the
consolidated local CSR block at a proxy has exactly the sum of the
`nLocalRows` contributed by the members of its `perDeviceWorld` — keeps the
column indices in global numbering (plain concatenation), and renumbers the
row offsets to a contiguous local range (the consolidated block is itself a
well-formed CSR block from offset 0 to the total nonzero count). -/
theorem c6_consolidation_row_counts (frags : List CSRFragment)
    (h : ∀ f ∈ frags, f.wf) :
    (consolidate frags).nRows = (frags.map (fun f => f.nRows)).sum ∧
    (consolidate frags).colIndices =
      (frags.map (fun f => f.colIndices)).flatten ∧
    (consolidate frags).wf := by
  have hlen := consOffsets_length frags (fun f hf => (h f hf).1)
  have hpos : 1 ≤ (consOffsets frags).length :=
    List.length_pos.mpr (consOffsets_ne_nil frags)
  refine ⟨?_, rfl, ?_, consOffsets_head frags h, ?_⟩
  · show (consOffsets frags).length - 1 = _
    omega
  · show (consOffsets frags).length = (consOffsets frags).length - 1 + 1
    omega
  · show (consOffsets frags).getLast? = _
    rw [consOffsets_getLast frags h]
    simp only [consolidate, List.length_flatten, List.map_map]
    rfl

/-- Witness for C6 on two concrete well-formed fragments (2 rows with 3
nonzeros, and 1 row with 2 nonzeros). -/
theorem c6_consolidation_row_counts_witness :
    (∀ f ∈ [({ nRows := 2, rowOffsets := [0, 1, 3], colIndices := [0, 2, 3],
               values := [5, 6, 7] } : CSRFragment),
            ({ nRows := 1, rowOffsets := [0, 2], colIndices := [1, 2],
               values := [8, 9] } : CSRFragment)], f.wf) ∧
    ((consolidate [({ nRows := 2, rowOffsets := [0, 1, 3],
                      colIndices := [0, 2, 3],
                      values := [5, 6, 7] } : CSRFragment),
                   ({ nRows := 1, rowOffsets := [0, 2], colIndices := [1, 2],
                      values := [8, 9] } : CSRFragment)]).nRows
        = ([({ nRows := 2, rowOffsets := [0, 1, 3], colIndices := [0, 2, 3],
               values := [5, 6, 7] } : CSRFragment),
            ({ nRows := 1, rowOffsets := [0, 2], colIndices := [1, 2],
               values := [8, 9] } : CSRFragment)].map
             (fun f => f.nRows)).sum ∧
     (consolidate [({ nRows := 2, rowOffsets := [0, 1, 3],
                      colIndices := [0, 2, 3],
                      values := [5, 6, 7] } : CSRFragment),
                   ({ nRows := 1, rowOffsets := [0, 2], colIndices := [1, 2],
                      values := [8, 9] } : CSRFragment)]).colIndices
        = ([({ nRows := 2, rowOffsets := [0, 1, 3], colIndices := [0, 2, 3],
               values := [5, 6, 7] } : CSRFragment),
            ({ nRows := 1, rowOffsets := [0, 2], colIndices := [1, 2],
               values := [8, 9] } : CSRFragment)].map
             (fun f => f.colIndices)).flatten ∧
     (consolidate [({ nRows := 2, rowOffsets := [0, 1, 3],
                      colIndices := [0, 2, 3],
                      values := [5, 6, 7] } : CSRFragment),
                   ({ nRows := 1, rowOffsets := [0, 2], colIndices := [1, 2],
                      values := [8, 9] } : CSRFragment)]).wf) :=
  ⟨by decide, c6_consolidation_row_counts _ (by decide)⟩

/-- Scattering produces one slice per requested row range. -/
theorem scatter_length (lens : List Nat) (xs : List α) :
    (scatter lens xs).length = lens.length := by
  induction lens generalizing xs with
  | nil => rfl
  | cons n rest ih => simp [scatter, ih]

/-- The `i`-th scattered slice is the `i`-th row range of the contiguous
solution vector: skip the rows of the members before `i`, take this member's
row count. -/
theorem scatter_getElem (lens : List Nat) (xs : List α) (i : Nat)
    (hi : i < lens.length) :
    (scatter lens xs).get ⟨i, by rw [scatter_length]; exact hi⟩ =
      (xs.drop ((lens.take i).sum)).take (lens.get ⟨i, hi⟩) := by
  induction lens generalizing xs i with
  | nil => exact absurd hi (by simp)
  | cons n rest ih =>
      cases i with
      | zero => simp [scatter]
      | succ m =>
          have hm : m < rest.length := Nat.lt_of_succ_lt_succ hi
          have hrec := ih (xs.drop n) m hm
          simp only [scatter, List.get_cons_succ, List.take_succ_cons,
            List.sum_cons] at hrec ⊢
          rw [hrec, List.drop_drop]

/-- The row range of one member fits inside the whole gathered vector. -/
theorem take_sum_add_get_le (lens : List Nat) (i : Nat)
    (hi : i < lens.length) :
    (lens.take i).sum + lens.get ⟨i, hi⟩ ≤ lens.sum := by
  have h1 : (lens.take i).sum + (lens.drop i).sum = lens.sum :=
    List.sum_take_add_sum_drop lens i
  have h2 : lens.get ⟨i, hi⟩ :: lens.drop (i + 1) = lens.drop i := by
    simp [List.get_eq_getElem]
  have h3 : (lens.drop i).sum = lens.get ⟨i, hi⟩ + (lens.drop (i + 1)).sum := by
    rw [← h2, List.sum_cons]
  omega

/-- C4: for every solve call that returns, every participating process (the
proxy and every relay) ends with its `p` slice equal to its row range of the
solution the external engine computed from the gathered vectors, with the
correct slice length, while its `b` slice is left unmodified. -/
theorem c4_solve_updates_p_preserves_b {α : Type}
    (ext : List α → List α → List α) (procs : List (ProcData α)) (i : Nat)
    (hi : i < procs.length) (hsl : i < (solveGSS ext procs).length)
    (hlen : (ext (gather (procs.map (fun d => d.p)))
              (gather (procs.map (fun d => d.b)))).length
        = (procs.map (fun d => d.p.length)).sum) :
    (solveGSS ext procs).length = procs.length ∧
    ((solveGSS ext procs).get ⟨i, hsl⟩).b = (procs.get ⟨i, hi⟩).b ∧
    ((solveGSS ext procs).get ⟨i, hsl⟩).p =
      ((ext (gather (procs.map (fun d => d.p)))
            (gather (procs.map (fun d => d.b)))).drop
          (((procs.map (fun d => d.p.length)).take i).sum)).take
        ((procs.get ⟨i, hi⟩).p.length) ∧
    ((solveGSS ext procs).get ⟨i, hsl⟩).p.length
      = (procs.get ⟨i, hi⟩).p.length := by
  have hply : i < (procs.map (fun d => d.p.length)).length := by
    simpa using hi
  have hscat : i < (scatter (procs.map (fun d => d.p.length))
      (ext (gather (procs.map (fun d => d.p)))
        (gather (procs.map (fun d => d.b))))).length := by
    rw [scatter_length]; simpa using hi
  have hget : ((solveGSS ext procs).get ⟨i, hsl⟩) =
      { p := (scatter (procs.map (fun d => d.p.length))
                (ext (gather (procs.map (fun d => d.p)))
                  (gather (procs.map (fun d => d.b))))).get ⟨i, hscat⟩,
        b := (procs.get ⟨i, hi⟩).b } := by
    simp only [solveGSS, List.get_eq_getElem, List.getElem_map,
      List.getElem_zip]
  have hslice := scatter_getElem (procs.map (fun d => d.p.length))
    (ext (gather (procs.map (fun d => d.p)))
      (gather (procs.map (fun d => d.b)))) i hply
  have hgetlen : (procs.map (fun d => d.p.length)).get ⟨i, hply⟩
      = (procs.get ⟨i, hi⟩).p.length := by
    simp [List.get_eq_getElem, List.getElem_map]
  refine ⟨?_, ?_, ?_, ?_⟩
  · simp [solveGSS, scatter_length]
  · rw [hget]
  · rw [hget]
    simp only [hslice, hgetlen]
  · rw [hget]
    simp only [hslice, hgetlen]
    have hfit := take_sum_add_get_le (procs.map (fun d => d.p.length)) i hply
    rw [hgetlen] at hfit
    simp only [List.length_take, List.length_drop, hlen]
    omega

/-- Witness for C4: a two-member `perDeviceWorld` (proxy with 2 rows, relay
with 1 row) and an external engine that returns the elementwise sum of the
gathered initial guess and right-hand side. -/
theorem c4_solve_updates_p_preserves_b_witness :
    (1 < [({ p := [10, 20], b := [1, 2] } : ProcData Nat),
          ({ p := [30], b := [3] } : ProcData Nat)].length ∧
     1 < (solveGSS (fun u v => List.zipWith Nat.add u v)
            [({ p := [10, 20], b := [1, 2] } : ProcData Nat),
             ({ p := [30], b := [3] } : ProcData Nat)]).length ∧
     (List.zipWith Nat.add
        (gather ([({ p := [10, 20], b := [1, 2] } : ProcData Nat),
                  ({ p := [30], b := [3] } : ProcData Nat)].map
           (fun d => d.p)))
        (gather ([({ p := [10, 20], b := [1, 2] } : ProcData Nat),
                  ({ p := [30], b := [3] } : ProcData Nat)].map
           (fun d => d.b)))).length
       = ([({ p := [10, 20], b := [1, 2] } : ProcData Nat),
           ({ p := [30], b := [3] } : ProcData Nat)].map
          (fun d => d.p.length)).sum) ∧
    ((solveGSS (fun u v => List.zipWith Nat.add u v)
        [({ p := [10, 20], b := [1, 2] } : ProcData Nat),
         ({ p := [30], b := [3] } : ProcData Nat)]).length
       = [({ p := [10, 20], b := [1, 2] } : ProcData Nat),
          ({ p := [30], b := [3] } : ProcData Nat)].length ∧
     ((solveGSS (fun u v => List.zipWith Nat.add u v)
         [({ p := [10, 20], b := [1, 2] } : ProcData Nat),
          ({ p := [30], b := [3] } : ProcData Nat)]).get
        ⟨1, by decide⟩).b
       = ([({ p := [10, 20], b := [1, 2] } : ProcData Nat),
           ({ p := [30], b := [3] } : ProcData Nat)].get ⟨1, by decide⟩).b ∧
     ((solveGSS (fun u v => List.zipWith Nat.add u v)
         [({ p := [10, 20], b := [1, 2] } : ProcData Nat),
          ({ p := [30], b := [3] } : ProcData Nat)]).get
        ⟨1, by decide⟩).p
       = ((List.zipWith Nat.add
            (gather ([({ p := [10, 20], b := [1, 2] } : ProcData Nat),
                      ({ p := [30], b := [3] } : ProcData Nat)].map
               (fun d => d.p)))
            (gather ([({ p := [10, 20], b := [1, 2] } : ProcData Nat),
                      ({ p := [30], b := [3] } : ProcData Nat)].map
               (fun d => d.b)))).drop
           (([({ p := [10, 20], b := [1, 2] } : ProcData Nat),
              ({ p := [30], b := [3] } : ProcData Nat)].map
             (fun d => d.p.length)).take 1).sum).take
         (([({ p := [10, 20], b := [1, 2] } : ProcData Nat),
            ({ p := [30], b := [3] } : ProcData Nat)].get
            ⟨1, by decide⟩).p.length) ∧
     ((solveGSS (fun u v => List.zipWith Nat.add u v)
         [({ p := [10, 20], b := [1, 2] } : ProcData Nat),
          ({ p := [30], b := [3] } : ProcData Nat)]).get
        ⟨1, by decide⟩).p.length
       = ([({ p := [10, 20], b := [1, 2] } : ProcData Nat),
           ({ p := [30], b := [3] } : ProcData Nat)].get
           ⟨1, by decide⟩).p.length) :=
  ⟨⟨by decide, by decide, by decide⟩,
   c4_solve_updates_p_preserves_b (fun u v => List.zipWith Nat.add u v)
     [({ p := [10, 20], b := [1, 2] } : ProcData Nat),
      ({ p := [30], b := [3] } : ProcData Nat)] 1
     (by decide) (by decide) (by decide)⟩

/-- The event at each position of the solve trace: the gathers occupy
positions `0..n-1`, the external solve sits at position `n`, the scatter
writes occupy positions `n+1..2n`. -/
theorem solveTrace_getElem? (n i : Nat) :
    (solveTrace n)[i]? =
      if i < n then some (SolveEvent.gatherSlice i)
      else if i = n then some SolveEvent.externalSolve
      else if i < 2 * n + 1 then some (SolveEvent.scatterWrite (i - (n + 1)))
      else none := by
  rw [solveTrace, List.getElem?_append]
  simp only [List.length_map, List.length_range]
  by_cases h1 : i < n
  · rw [if_pos h1, if_pos h1, List.getElem?_map, List.getElem?_range h1]
    rfl
  · rw [if_neg h1, if_neg h1]
    by_cases h2 : i = n
    · subst h2
      rw [if_pos rfl, Nat.sub_self, List.getElem?_cons_zero]
    · rw [if_neg h2]
      obtain ⟨k, rfl⟩ : ∃ k, i = n + 1 + k := ⟨i - (n + 1), by omega⟩
      have hsub : n + 1 + k - n = k + 1 := by omega
      rw [hsub, List.getElem?_cons_succ, List.getElem?_map]
      by_cases h3 : k < n
      · rw [if_pos (by omega), List.getElem?_range h3]
        have : n + 1 + k - (n + 1) = k := by omega
        rw [this]
        rfl
      · rw [if_neg (by omega), List.getElem?_eq_none (by simpa using h3)]
        rfl

/-- C8: the operations of a solve call are strictly ordered — every gather
event precedes the external solve, and the external solve precedes every
scatter write of the updated `p` slices, so no member observes a partially
updated `p` (all writes of `p` happen after the solve has completed). -/
theorem c8_gather_solve_scatter_order (n i j k : Nat) (ei ej ek : SolveEvent)
    (hgi : (solveTrace n)[i]? = some ei) (hgg : ei.isGather = true)
    (hj : (solveTrace n)[j]? = some ej)
    (hje : ej = SolveEvent.externalSolve)
    (hk : (solveTrace n)[k]? = some ek) (hks : ek.isScatter = true) :
    i < j ∧ j < k := by
  have hci := solveTrace_getElem? n i
  have hcj := solveTrace_getElem? n j
  have hck := solveTrace_getElem? n k
  rw [hgi] at hci
  rw [hj] at hcj
  rw [hk] at hck
  subst hje
  have hin : i < n := by
    split_ifs at hci with h1 h2 h3
    · exact h1
    · simp only [Option.some.injEq] at hci
      rw [hci] at hgg
      exact absurd hgg (by simp [SolveEvent.isGather])
    · simp only [Option.some.injEq] at hci
      rw [hci] at hgg
      exact absurd hgg (by simp [SolveEvent.isGather])
  have hjn : j = n := by
    split_ifs at hcj with h1 h2 h3
    · exact absurd hcj (by simp)
    · exact h2
    · exact absurd hcj (by simp)
  have hkn : n < k := by
    split_ifs at hck with h1 h2 h3
    · simp only [Option.some.injEq] at hck
      rw [hck] at hks
      exact absurd hks (by simp [SolveEvent.isScatter])
    · simp only [Option.some.injEq] at hck
      rw [hck] at hks
      exact absurd hks (by simp [SolveEvent.isScatter])
    · omega
  omega

/-- Witness for C8 in a two-member `perDeviceWorld`: the gather at position
0 precedes the solve at position 2, which precedes the scatter write at
position 3. -/
theorem c8_gather_solve_scatter_order_witness :
    ((solveTrace 2)[0]? = some (SolveEvent.gatherSlice 0) ∧
     (SolveEvent.gatherSlice 0).isGather = true ∧
     (solveTrace 2)[2]? = some SolveEvent.externalSolve ∧
     (solveTrace 2)[3]? = some (SolveEvent.scatterWrite 0) ∧
     (SolveEvent.scatterWrite 0).isScatter = true) ∧
    (0 < 2 ∧ 2 < 3) :=
  ⟨⟨by decide, by decide, by decide, by decide, by decide⟩,
   c8_gather_solve_scatter_order 2 0 2 3 (SolveEvent.gatherSlice 0)
     SolveEvent.externalSolve (SolveEvent.scatterWrite 0)
     (by decide) (by decide) (by decide) (by decide) (by decide) (by decide)⟩

end Foam2Csr
